import Mathlib

/-!
Verification of the resilient workflow-orchestration logic of the
`linux_do_idc_flare_botting` repository (single source file `main.py`,
class `DiscourseAutoRead` plus `main`).

Each Python function that a claim refers to is shallowly embedded as an
executable Lean definition.  Browser-session effects (DOM queries, cookie
store, window handles, page URLs and body text) are made explicit as
arguments and return values; randomness and the outcomes of external
events (element clicks succeeding, predicates becoming true) are
parameters, so the theorems quantify over every possible behaviour of
the environment.

Conventions used throughout:
* Python strings are Lean `String`s; the Python substring test
  `needle in hay` is `strContains hay needle`.
* A Python function that can raise an uncaught exception is modelled
  with an `Option` result (`none` = the exception propagates).
* `time.sleep` calls are irrelevant to the verified properties and are
  dropped; loop/poll counters are kept.
-/

/-- `listContainsSub n l` is true iff `n` occurs as a contiguous sublist of
`l`.  Helper for `strContains`. -/
def listContainsSub (n : List Char) : List Char → Bool
  | [] => n.isEmpty
  | c :: rest => n.isPrefixOf (c :: rest) || listContainsSub n rest

/-- Python's substring test `needle in hay` on strings. -/
def strContains (hay needle : String) : Bool :=
  listContainsSub needle.data hay.data

/-! ## Cookie model (`_clear_anyrouter_cookies`, main.py lines 745-758)

The spec's Browser Session interface (§6) exposes the cookie store as a
sequence of `{name, domain, value}` records, with `get_all()` returning
the whole store and `delete(name)` deleting by cookie *name* (no domain
argument) — exactly the interface `driver.get_cookies()` /
`driver.delete_cookie(cookie['name'])` that the source uses. -/

structure Cookie where
  name : String
  domain : String
  value : String
deriving DecidableEq, Repr

/-- `driver.delete_cookie(nm)` on the abstract cookie store of §6: removes
the cookie(s) with the given name.  The call carries no domain, so every
cookie named `nm` is affected, whatever its domain. -/
def delete_cookie (nm : String) (store : List Cookie) : List Cookie :=
  store.filter (fun c => c.name != nm)

/-- One iteration of the loop body of `_clear_anyrouter_cookies`:
`if 'anyrouter' in cookie.get('domain', ''): driver.delete_cookie(cookie['name'])`. -/
def clearAnyrouterStep (s : List Cookie) (c : Cookie) : List Cookie :=
  if strContains c.domain "anyrouter" then delete_cookie c.name s else s

/-- `_clear_anyrouter_cookies` (main.py 745-758): snapshots the store with
`get_cookies()`, then for every snapshot cookie whose domain contains
`'anyrouter'` calls `delete_cookie(name)`. -/
def clear_anyrouter_cookies (store : List Cookie) : List Cookie :=
  store.foldl clearAnyrouterStep store

/-- The deletion fold, characterised: starting from any accumulator, after
processing snapshot `l` exactly those accumulator cookies survive whose
name differs from the name of every anyrouter-domain cookie of `l`. -/
theorem clearAnyrouter_foldl_eq (l : List Cookie) (acc : List Cookie) :
    l.foldl clearAnyrouterStep acc
      = acc.filter
          (fun x => l.all fun c => !strContains c.domain "anyrouter" || x.name != c.name) := by
  induction l generalizing acc with
  | nil => simp
  | cons c t ih =>
    rw [List.foldl_cons, ih]
    unfold clearAnyrouterStep
    cases hc : strContains c.domain "anyrouter" with
    | false =>
      rw [if_neg (by simp)]
      apply List.filter_congr
      intro x _
      simp [hc]
    | true =>
      rw [if_pos rfl]
      unfold delete_cookie
      rw [List.filter_filter]
      apply List.filter_congr
      intro x _
      simp [hc, Bool.and_comm]

/-- Concrete cookie store: a linux.do cookie and an anyrouter.top cookie
sharing the cookie name `session`. -/
def cexCookieStore : List Cookie :=
  [⟨"session", "linux.do", "v1"⟩, ⟨"session", ".anyrouter.top", "v2"⟩]

/-- C1 counterexample: with the store `cexCookieStore`, the reset action
deletes the linux.do cookie `session` as well — `delete_cookie` is keyed
by name only, so the identity-provider cookie that shares its name with
the anyrouter cookie does not survive, refuting the claim that every
other domain's cookie is left present and unchanged. -/
theorem C1_cookie_reset_cex :
    (⟨"session", "linux.do", "v1"⟩ : Cookie) ∈ cexCookieStore ∧
    strContains "linux.do" "anyrouter" = false ∧
    clear_anyrouter_cookies cexCookieStore = [] := by
  refine ⟨by decide, by decide, by decide⟩

/-- C1 (amended): the between-attempts reset removes every cookie whose
domain contains `'anyrouter'`, and a cookie of any other domain survives
exactly when its name differs from the name of every anyrouter-domain
cookie in the store (deletion is keyed by cookie name, so a preserved-
domain cookie that shares its name with a removed cookie is deleted
too).  Consequently no anyrouter-domain cookie remains after the reset. -/
theorem C1_cookie_reset_amended (store : List Cookie) :
    clear_anyrouter_cookies store
        = store.filter
            (fun x => store.all fun c => !strContains c.domain "anyrouter" || x.name != c.name) ∧
      (clear_anyrouter_cookies store).all (fun c => !strContains c.domain "anyrouter") = true := by
  have heq : clear_anyrouter_cookies store
      = store.filter
          (fun x => store.all fun c => !strContains c.domain "anyrouter" || x.name != c.name) :=
    clearAnyrouter_foldl_eq store store
  refine ⟨heq, ?_⟩
  rw [heq, List.all_eq_true]
  intro x hx
  rcases List.mem_filter.mp hx with ⟨hmem, hpred⟩
  have hx' := List.all_eq_true.mp hpred x hmem
  simpa using hx'

/-! ## Window session model (`_cleanup_tabs`, main.py lines 780-792)

`driver.window_handles` is the ordered list of open window identifiers
and `driver.current_window_handle` the active one (absent right after
the active window was closed).  `switch_to.window(h)` raises when `h`
is not open — modelled by an `Option` result. -/

structure WinState where
  handles : List String
  current : Option String
deriving DecidableEq, Repr

/-- `driver.switch_to.window(h)`: activates `h` if it is open, otherwise
raises (`none`). -/
def switchToWindow (h : String) (s : WinState) : Option WinState :=
  if s.handles.contains h then some ⟨s.handles, some h⟩ else none

/-- `driver.close()`: closes the active window; afterwards no window is
active. -/
def closeCurrent (s : WinState) : WinState :=
  match s.current with
  | some c => ⟨s.handles.filter (fun x => x != c), none⟩
  | none => s

/-- Loop body of `_cleanup_tabs`: for a handle `h` of the snapshot,
`if h != keep_handle: try: switch_to(h); close() except: pass`. -/
def cleanupStep (keep : String) (s : WinState) (h : String) : WinState :=
  if h != keep then
    match switchToWindow h s with
    | some s2 => closeCurrent s2
    | none => s
  else s

/-- The closing loop of `_cleanup_tabs`: iterates over the snapshot of
`driver.window_handles` taken at loop entry. -/
def cleanupFold (keep : String) (s : WinState) : WinState :=
  s.handles.foldl (cleanupStep keep) s

/-- `_cleanup_tabs` (main.py 780-792): closes every open window other
than `keep`, then `try: switch_to(keep) except: switch_to(window_handles[0])`.
The final fallback indexes `window_handles[0]`; on an empty handle list
that raises an uncaught `IndexError`, modelled as `none`. -/
def cleanup_tabs (keep : String) (s : WinState) : Option WinState :=
  match switchToWindow keep (cleanupFold keep s) with
  | some s2 => some s2
  | none =>
    match (cleanupFold keep s).handles with
    | [] => none
    | h0 :: _ => switchToWindow h0 (cleanupFold keep s)

/-- After the closing loop over snapshot `l`, exactly those windows stay
open that either are `keep` or never occur in the snapshot. -/
theorem cleanupFold_handles (keep : String) (l : List String) (s : WinState) :
    (l.foldl (cleanupStep keep) s).handles
      = s.handles.filter (fun x => x == keep || !l.contains x) := by
  induction l generalizing s with
  | nil => simp
  | cons h t ih =>
    rw [List.foldl_cons, ih]
    unfold cleanupStep switchToWindow
    cases hk : h == keep with
    | true =>
      have hhk : h = keep := by simpa using hk
      rw [if_neg (by simp [hhk])]
      apply List.filter_congr
      intro x _
      cases hxk : x == keep with
      | true => simp [hxk]
      | false =>
        have hxh : (x == h) = false := by rw [hhk]; exact hxk
        have hxh' : ¬x = h := by simpa using hxh
        simp [hxk, List.contains_cons, hxh, hxh']
    | false =>
      rw [if_pos (by simpa using hk)]
      cases hc : s.handles.contains h with
      | true =>
        rw [if_pos (by simp [hc])]
        unfold closeCurrent
        simp only [List.filter_filter]
        apply List.filter_congr
        intro x _
        cases hxk : x == keep with
        | true =>
          have hxkeq : x = keep := by simpa using hxk
          have hxh' : ¬x = h := by
            intro hcon
            rw [hxkeq] at hcon
            rw [← hcon] at hk
            simp at hk
          have hxh : (x == h) = false := by simpa using hxh'
          simp [hxk, List.contains_cons, hxh, hxh']
        | false =>
          cases hxh : x == h with
          | true =>
            have hxheq : x = h := by simpa using hxh
            simp [hxk, List.contains_cons, hxh, hxheq]
          | false =>
            have hxh' : ¬x = h := by simpa using hxh
            simp [hxk, List.contains_cons, hxh, hxh', Bool.and_comm]
      | false =>
        rw [if_neg (by simp [hc])]
        apply List.filter_congr
        intro x hx
        have hnm : h ∉ s.handles := by simpa using hc
        have hxh' : ¬x = h := fun hcon => hnm (hcon ▸ hx)
        have hxh : (x == h) = false := by simpa using hxh'
        simp [List.contains_cons, hxh, hxh']

/-- In a duplicate-free list that contains `a`, filtering for `a` yields
exactly `[a]`. -/
theorem filter_beq_of_nodup {l : List String} {a : String} (hnd : l.Nodup)
    (ha : a ∈ l) : l.filter (fun x => x == a) = [a] := by
  induction l with
  | nil => cases ha
  | cons b t ih =>
    rw [List.nodup_cons] at hnd
    rcases List.mem_cons.mp ha with rfl | hat
    · rw [List.filter_cons_of_pos (by simp)]
      have hnil : t.filter (fun x => x == a) = [] := by
        rw [List.filter_eq_nil_iff]
        intro y hy hya
        exact hnd.1 ((by simpa using hya : y = a) ▸ hy)
      rw [hnil]
    · have hba : ¬(b == a) = true := by
        intro hcon
        exact hnd.1 ((by simpa using hcon : b = a) ▸ hat)
      have hstep : List.filter (fun x => x == a) (b :: t)
          = List.filter (fun x => x == a) t := List.filter_cons_of_neg hba
      rw [hstep]
      exact ih hnd.2 hat

/-- If `keep` is still open, the closing loop leaves exactly `[keep]`. -/
theorem cleanupFold_of_mem {keep : String} {s : WinState}
    (hnd : s.handles.Nodup) (hmem : keep ∈ s.handles) :
    (cleanupFold keep s).handles = [keep] := by
  unfold cleanupFold
  rw [cleanupFold_handles]
  have : s.handles.filter (fun x => x == keep || !s.handles.contains x)
      = s.handles.filter (fun x => x == keep) := by
    apply List.filter_congr
    intro x hx
    simp [hx]
  rw [this]
  exact filter_beq_of_nodup hnd hmem

/-- If `keep` is no longer open, the closing loop closes every window. -/
theorem cleanupFold_of_not_mem {keep : String} {s : WinState}
    (hmem : keep ∉ s.handles) : (cleanupFold keep s).handles = [] := by
  unfold cleanupFold
  rw [cleanupFold_handles, List.filter_eq_nil_iff]
  intro x hx
  have hxk : ¬x = keep := fun hcon => hmem (hcon ▸ hx)
  simp [hx, hxk]

/-- `_cleanup_tabs` with a still-open `keep` consolidates to `keep` alone. -/
theorem cleanup_tabs_of_mem {keep : String} {s : WinState}
    (hnd : s.handles.Nodup) (hmem : keep ∈ s.handles) :
    cleanup_tabs keep s = some ⟨[keep], some keep⟩ := by
  have h1 := cleanupFold_of_mem hnd hmem
  unfold cleanup_tabs switchToWindow
  rw [h1]
  simp


/-- `_cleanup_tabs` with `keep` no longer open closes every window and
then raises (`window_handles[0]` on an empty list). -/
theorem cleanup_tabs_of_not_mem {keep : String} {s : WinState}
    (hmem : keep ∉ s.handles) : cleanup_tabs keep s = none := by
  have h1 := cleanupFold_of_not_mem hmem
  unfold cleanup_tabs switchToWindow
  rw [h1]
  simp

/-- C2 counterexample: consolidating onto a handle that is not among the
open windows (`"w2"` with only `"w1"` open) does not leave exactly one
window open — it closes every window (the closing loop leaves an empty
handle list) and the fallback then raises, refuting totality and the
never-zero-windows guarantee of the claim. -/
theorem C2_consolidate_cex :
    (cleanupFold "w2" ⟨["w1"], some "w1"⟩).handles = [] ∧
    cleanup_tabs "w2" ⟨["w1"], some "w1"⟩ = none := by
  refine ⟨by decide, by decide⟩

/-- C2 (amended): over duplicate-free window sets, if the kept handle is
still open, consolidation leaves exactly that one window open and is
idempotent (a second call returns the same single-window state); if the
kept handle is no longer open, the operation closes all windows and
fails with zero windows left, rather than falling back to a remaining
window. -/
theorem C2_consolidate_amended (keep : String) (s : WinState)
    (hnd : s.handles.Nodup) :
    (keep ∈ s.handles →
      cleanup_tabs keep s = some ⟨[keep], some keep⟩ ∧
      cleanup_tabs keep ⟨[keep], some keep⟩ = some ⟨[keep], some keep⟩) ∧
    (keep ∉ s.handles → cleanup_tabs keep s = none) := by
  refine ⟨fun hmem => ⟨cleanup_tabs_of_mem hnd hmem, ?_⟩, fun hmem => cleanup_tabs_of_not_mem hmem⟩
  exact cleanup_tabs_of_mem (by simp) (by simp)

/-- Witness for C2 (amended) at concrete window states. -/
theorem C2_consolidate_amended_witness :
    cleanup_tabs "w1" ⟨["w1", "w2"], some "w1"⟩ = some ⟨["w1"], some "w1"⟩ ∧
    cleanup_tabs "w1" ⟨["w1"], some "w1"⟩ = some ⟨["w1"], some "w1"⟩ ∧
    cleanup_tabs "w9" ⟨["w1", "w2"], some "w1"⟩ = none := by
  have h := C2_consolidate_amended "w1" ⟨["w1", "w2"], some "w1"⟩ (by decide)
  have h9 := C2_consolidate_amended "w9" ⟨["w1", "w2"], some "w1"⟩ (by decide)
  exact ⟨(h.1 (by decide)).1, (h.1 (by decide)).2, h9.2 (by decide)⟩

/-! ## Retry loop (`anyrouter_checkin`, main.py lines 760-778)

`anyrouter_checkin` runs `for attempt in range(1, max_retries + 1)` with
`max_retries = 3`; every attempt's success/failure is abstracted as a
function `attemptFn : Nat → Bool` from the attempt ordinal.  After a
failed non-final attempt it runs the reset action
(`_clear_anyrouter_cookies`); the model counts those reset runs. -/

/-- The retry loop body: walks the remaining attempt ordinals, returning
the overall result and the number of reset-action runs. -/
def anyrouterRetryGo (attemptFn : Nat → Bool) (maxRetries : Nat) :
    List Nat → Nat → Bool × Nat
  | [], resets => (false, resets)
  | a :: rest, resets =>
    if attemptFn a then (true, resets)
    else if a < maxRetries then anyrouterRetryGo attemptFn maxRetries rest (resets + 1)
    else anyrouterRetryGo attemptFn maxRetries rest resets

/-- `anyrouter_checkin` (main.py 760-778): three attempts, a cookie reset
after each failed non-final attempt, overall result plus reset count. -/
def anyrouter_checkin (attemptFn : Nat → Bool) : Bool × Nat :=
  anyrouterRetryGo attemptFn 3 (List.range' 1 3) 0

/-- C3: with the per-attempt classifier failing on attempts 1 and 2, the
orchestrator runs the reset action exactly twice and reports Success when
attempt 3 succeeds, and exactly twice with overall failure when attempt 3
also fails; the reset never runs after the successful attempt. -/
theorem C3_retry_resets (attemptFn : Nat → Bool)
    (h1 : attemptFn 1 = false) (h2 : attemptFn 2 = false) :
    anyrouter_checkin attemptFn
      = (if attemptFn 3 then (true, 2) else (false, 2)) := by
  have hr : List.range' 1 3 = [1, 2, 3] := by decide
  unfold anyrouter_checkin
  rw [hr]
  cases h3 : attemptFn 3 <;> simp [anyrouterRetryGo, h1, h2, h3]

/-- Witness for C3 at two concrete classifiers: success only on attempt 3,
and failure on every attempt. -/
theorem C3_retry_resets_witness :
    anyrouter_checkin (fun n => decide (n = 3)) = (true, 2) ∧
    anyrouter_checkin (fun _ => false) = (false, 2) := by
  have ha := C3_retry_resets (fun n => decide (n = 3)) (by decide) (by decide)
  have hb := C3_retry_resets (fun _ => false) rfl rfl
  refine ⟨?_, ?_⟩
  · rw [ha]; decide
  · rw [hb]; decide

/-! ## Window scan and outcome decision (`_anyrouter_checkin_attempt`,
main.py lines 888-947)

Each open window is a `(handle, TabWin)` pair; `TabWin` carries the
values the scan reads: `driver.current_url` and the `<body>` text. -/

structure TabWin where
  url : String
  body : String
deriving DecidableEq, Repr

/-- Success test of the scan: `"anyrouter.top/console/token" in tab_url`
(checked first, short-circuits the whole scan). -/
def isSuccessWin (w : TabWin) : Bool :=
  strContains w.url "anyrouter.top/console/token"

/-- Error-signal test: `"清除 Cookie" in page_text or "错误" in page_text`. -/
def hasErrText (w : TabWin) : Bool :=
  strContains w.body "清除 Cookie" || strContains w.body "错误"

/-- Redirected-back-to-login test:
`"anyrouter.top" in tab_url and "/login" in tab_url`. -/
def isLoginRedirect (w : TabWin) : Bool :=
  strContains w.url "anyrouter.top" && strContains w.url "/login"

/-- A window the scan records as a failure (given it is not a success
window): error text on the page, or redirected back to `/login`.  The
two source branches update `failure_handle` identically, so they are
merged into one predicate. -/
def isFailWin (w : TabWin) : Bool :=
  !isSuccessWin w && (hasErrText w || isLoginRedirect w)

/-- A window recorded as the undetermined anyrouter candidate:
`"anyrouter.top" in tab_url and "/login" not in tab_url`, reached only
when the earlier tests all failed. -/
def isCandWin (w : TabWin) : Bool :=
  !isSuccessWin w && !isFailWin w
    && strContains w.url "anyrouter.top" && !strContains w.url "/login"

/-- The scan accumulators of `_anyrouter_checkin_attempt`:
`success_handle`, `failure_handle`, `anyrouter_handle`. -/
structure ScanRes where
  succ : Option String
  fail : Option String
  cand : Option String
deriving DecidableEq, Repr

/-- The per-window scan loop (main.py 888-928): walks the open windows
in order, breaking at the first success-URL window; failure and
candidate handles are overwritten as later matches appear. -/
def scanTabs (f a : Option String) : List (String × TabWin) → ScanRes
  | [] => ⟨none, f, a⟩
  | (h, w) :: rest =>
    if isSuccessWin w then ⟨some h, f, a⟩
    else if isFailWin w then scanTabs (some h) a rest
    else if isCandWin w then scanTabs f (some h) rest
    else scanTabs f a rest

/-- The classified outcome of one attempt's scan: the classification and
the window handle the attempt consolidates onto. -/
inductive CkOutcome where
  | success (kept : String)
  | failure (kept : String)
  | unclear (kept : String)
deriving DecidableEq, Repr

/-- The post-scan decision (main.py 930-947): a success window wins
outright; else a failure window forces failure with the original window
(or `window_handles[0]`) kept; else the last anyrouter candidate (or the
original window) is kept as the best-effort candidate, falling back to
`window_handles[0]` when it is not open.  `none` models the uncaught
`IndexError` of `window_handles[0]` on an empty handle list. -/
def scan_decide (original : String) (wins : List (String × TabWin)) :
    Option CkOutcome :=
  match (scanTabs none none wins).succ with
  | some h => some (.success h)
  | none =>
    match (scanTabs none none wins).fail with
    | some _ =>
      if (wins.map Prod.fst).contains original then some (.failure original)
      else
        match wins.map Prod.fst with
        | [] => none
        | h0 :: _ => some (.failure h0)
    | none =>
      if (wins.map Prod.fst).contains ((scanTabs none none wins).cand.getD original)
      then some (.unclear ((scanTabs none none wins).cand.getD original))
      else
        match wins.map Prod.fst with
        | [] => none
        | h0 :: _ => some (.unclear h0)

/-- The `succ` component of the scan does not depend on the running
failure/candidate accumulators. -/
theorem scanTabs_succ_indep (l : List (String × TabWin)) :
    ∀ f a f' a', (scanTabs f a l).succ = (scanTabs f' a' l).succ := by
  induction l with
  | nil => intro f a f' a'; rfl
  | cons p rest ih =>
    intro f a f' a'
    obtain ⟨h, w⟩ := p
    unfold scanTabs
    by_cases hs : isSuccessWin w = true
    · rw [if_pos hs, if_pos hs]
    · rw [if_neg hs, if_neg hs]
      by_cases hf : isFailWin w = true
      · rw [if_pos hf, if_pos hf]; exact ih _ _ _ _
      · rw [if_neg hf, if_neg hf]
        by_cases hc : isCandWin w = true
        · rw [if_pos hc, if_pos hc]; exact ih _ _ _ _
        · rw [if_neg hc, if_neg hc]; exact ih _ _ _ _

/-- If some scanned window is a success window, the scan reports a
success handle belonging to a success window. -/
theorem scanTabs_succ_of_exists {l : List (String × TabWin)}
    (hex : ∃ p ∈ l, isSuccessWin p.2 = true) :
    ∀ f a, ∃ p ∈ l, isSuccessWin p.2 = true ∧ (scanTabs f a l).succ = some p.1 := by
  induction l with
  | nil => rcases hex with ⟨p, hp, _⟩; cases hp
  | cons q rest ih =>
    intro f a
    obtain ⟨h, w⟩ := q
    by_cases hs : isSuccessWin w = true
    · exact ⟨(h, w), List.mem_cons_self _ _, hs, by unfold scanTabs; rw [if_pos hs]⟩
    · have hex' : ∃ p ∈ rest, isSuccessWin p.2 = true := by
        rcases hex with ⟨p, hp, hps⟩
        rcases List.mem_cons.mp hp with rfl | hpr
        · exact absurd hps hs
        · exact ⟨p, hpr, hps⟩
      by_cases hf : isFailWin w = true
      · rcases ih hex' (some h) a with ⟨p, hpr, hps, heq⟩
        refine ⟨p, List.mem_cons_of_mem _ hpr, hps, ?_⟩
        unfold scanTabs
        rw [if_neg hs, if_pos hf]
        exact heq
      · by_cases hc : isCandWin w = true
        · rcases ih hex' f (some h) with ⟨p, hpr, hps, heq⟩
          refine ⟨p, List.mem_cons_of_mem _ hpr, hps, ?_⟩
          unfold scanTabs
          rw [if_neg hs, if_neg hf, if_pos hc]
          exact heq
        · rcases ih hex' f a with ⟨p, hpr, hps, heq⟩
          refine ⟨p, List.mem_cons_of_mem _ hpr, hps, ?_⟩
          unfold scanTabs
          rw [if_neg hs, if_neg hf, if_neg hc]
          exact heq

/-- If no scanned window is a success window, the scan reports no
success handle. -/
theorem scanTabs_succ_none {l : List (String × TabWin)}
    (hno : ∀ p ∈ l, isSuccessWin p.2 = false) :
    ∀ f a, (scanTabs f a l).succ = none := by
  induction l with
  | nil => intro f a; rfl
  | cons q rest ih =>
    intro f a
    obtain ⟨h, w⟩ := q
    have hs : ¬isSuccessWin w = true := by
      rw [hno (h, w) (List.mem_cons_self _ _)]; simp
    have hrest : ∀ p ∈ rest, isSuccessWin p.2 = false :=
      fun p hp => hno p (List.mem_cons_of_mem _ hp)
    unfold scanTabs
    rw [if_neg hs]
    by_cases hf : isFailWin w = true
    · rw [if_pos hf]; exact ih hrest _ _
    · rw [if_neg hf]
      by_cases hc : isCandWin w = true
      · rw [if_pos hc]; exact ih hrest _ _
      · rw [if_neg hc]; exact ih hrest _ _

/-- With no success and no failure window, the failure accumulator
passes through the scan unchanged. -/
theorem scanTabs_fail_acc {l : List (String × TabWin)}
    (hnos : ∀ p ∈ l, isSuccessWin p.2 = false)
    (hnof : ∀ p ∈ l, isFailWin p.2 = false) :
    ∀ f a, (scanTabs f a l).fail = f := by
  induction l with
  | nil => intro f a; rfl
  | cons q rest ih =>
    intro f a
    obtain ⟨h, w⟩ := q
    have hs : ¬isSuccessWin w = true := by
      rw [hnos (h, w) (List.mem_cons_self _ _)]; simp
    have hf : ¬isFailWin w = true := by
      rw [hnof (h, w) (List.mem_cons_self _ _)]; simp
    have hrs : ∀ p ∈ rest, isSuccessWin p.2 = false :=
      fun p hp => hnos p (List.mem_cons_of_mem _ hp)
    have hrf : ∀ p ∈ rest, isFailWin p.2 = false :=
      fun p hp => hnof p (List.mem_cons_of_mem _ hp)
    unfold scanTabs
    rw [if_neg hs, if_neg hf]
    by_cases hc : isCandWin w = true
    · rw [if_pos hc]; exact ih hrs hrf _ _
    · rw [if_neg hc]; exact ih hrs hrf _ _

/-- With no success window but some failure window, the scan reports a
failure handle. -/
theorem scanTabs_fail_of_exists {l : List (String × TabWin)}
    (hnos : ∀ p ∈ l, isSuccessWin p.2 = false)
    (hex : ∃ p ∈ l, isFailWin p.2 = true) :
    ∀ f a, ∃ p ∈ l, isFailWin p.2 = true ∧ (scanTabs f a l).fail = some p.1 := by
  induction l with
  | nil => rcases hex with ⟨p, hp, _⟩; cases hp
  | cons q rest ih =>
    intro f a
    obtain ⟨h, w⟩ := q
    have hs : ¬isSuccessWin w = true := by
      rw [hnos (h, w) (List.mem_cons_self _ _)]; simp
    have hrs : ∀ p ∈ rest, isSuccessWin p.2 = false :=
      fun p hp => hnos p (List.mem_cons_of_mem _ hp)
    by_cases hf : isFailWin w = true
    · by_cases hrest : ∃ p ∈ rest, isFailWin p.2 = true
      · rcases ih hrs hrest (some h) a with ⟨p, hpr, hpf, heq⟩
        refine ⟨p, List.mem_cons_of_mem _ hpr, hpf, ?_⟩
        unfold scanTabs
        rw [if_neg hs, if_pos hf]
        exact heq
      · have hnof : ∀ p ∈ rest, isFailWin p.2 = false := by
          intro p hp
          cases hv : isFailWin p.2 with
          | false => rfl
          | true => exact absurd ⟨p, hp, hv⟩ hrest
        refine ⟨(h, w), List.mem_cons_self _ _, hf, ?_⟩
        unfold scanTabs
        rw [if_neg hs, if_pos hf]
        exact scanTabs_fail_acc hrs hnof _ _
    · have hex' : ∃ p ∈ rest, isFailWin p.2 = true := by
        rcases hex with ⟨p, hp, hpf⟩
        rcases List.mem_cons.mp hp with rfl | hpr
        · exact absurd hpf hf
        · exact ⟨p, hpr, hpf⟩
      by_cases hc : isCandWin w = true
      · rcases ih hrs hex' f (some h) with ⟨p, hpr, hpf, heq⟩
        refine ⟨p, List.mem_cons_of_mem _ hpr, hpf, ?_⟩
        unfold scanTabs
        rw [if_neg hs, if_neg hf, if_pos hc]
        exact heq
      · rcases ih hrs hex' f a with ⟨p, hpr, hpf, heq⟩
        refine ⟨p, List.mem_cons_of_mem _ hpr, hpf, ?_⟩
        unfold scanTabs
        rw [if_neg hs, if_neg hf, if_neg hc]
        exact heq

/-- With no success and no candidate window, the candidate accumulator
passes through the scan unchanged. -/
theorem scanTabs_cand_acc {l : List (String × TabWin)}
    (hnos : ∀ p ∈ l, isSuccessWin p.2 = false)
    (hnoc : ∀ p ∈ l, isCandWin p.2 = false) :
    ∀ f a, (scanTabs f a l).cand = a := by
  induction l with
  | nil => intro f a; rfl
  | cons q rest ih =>
    intro f a
    obtain ⟨h, w⟩ := q
    have hs : ¬isSuccessWin w = true := by
      rw [hnos (h, w) (List.mem_cons_self _ _)]; simp
    have hc : ¬isCandWin w = true := by
      rw [hnoc (h, w) (List.mem_cons_self _ _)]; simp
    have hrs : ∀ p ∈ rest, isSuccessWin p.2 = false :=
      fun p hp => hnos p (List.mem_cons_of_mem _ hp)
    have hrc : ∀ p ∈ rest, isCandWin p.2 = false :=
      fun p hp => hnoc p (List.mem_cons_of_mem _ hp)
    unfold scanTabs
    rw [if_neg hs]
    by_cases hf : isFailWin w = true
    · rw [if_pos hf]; exact ih hrs hrc _ _
    · rw [if_neg hf, if_neg hc]; exact ih hrs hrc _ _

/-- With no success window but some candidate window, the scan reports a
candidate handle belonging to a candidate window. -/
theorem scanTabs_cand_of_exists {l : List (String × TabWin)}
    (hnos : ∀ p ∈ l, isSuccessWin p.2 = false)
    (hex : ∃ p ∈ l, isCandWin p.2 = true) :
    ∀ f a, ∃ p ∈ l, isCandWin p.2 = true ∧ (scanTabs f a l).cand = some p.1 := by
  induction l with
  | nil => rcases hex with ⟨p, hp, _⟩; cases hp
  | cons q rest ih =>
    intro f a
    obtain ⟨h, w⟩ := q
    have hs : ¬isSuccessWin w = true := by
      rw [hnos (h, w) (List.mem_cons_self _ _)]; simp
    have hrs : ∀ p ∈ rest, isSuccessWin p.2 = false :=
      fun p hp => hnos p (List.mem_cons_of_mem _ hp)
    by_cases hc : isCandWin w = true
    · have hf : ¬isFailWin w = true := by
        intro hcon
        unfold isCandWin at hc
        rw [hcon] at hc
        simp at hc
      by_cases hrest : ∃ p ∈ rest, isCandWin p.2 = true
      · rcases ih hrs hrest f (some h) with ⟨p, hpr, hpc, heq⟩
        refine ⟨p, List.mem_cons_of_mem _ hpr, hpc, ?_⟩
        unfold scanTabs
        rw [if_neg hs, if_neg hf, if_pos hc]
        exact heq
      · have hnoc : ∀ p ∈ rest, isCandWin p.2 = false := by
          intro p hp
          cases hv : isCandWin p.2 with
          | false => rfl
          | true => exact absurd ⟨p, hp, hv⟩ hrest
        refine ⟨(h, w), List.mem_cons_self _ _, hc, ?_⟩
        unfold scanTabs
        rw [if_neg hs, if_neg hf, if_pos hc]
        exact scanTabs_cand_acc hrs hnoc _ _
    · have hex' : ∃ p ∈ rest, isCandWin p.2 = true := by
        rcases hex with ⟨p, hp, hpc⟩
        rcases List.mem_cons.mp hp with rfl | hpr
        · exact absurd hpc hc
        · exact ⟨p, hpr, hpc⟩
      by_cases hf : isFailWin w = true
      · rcases ih hrs hex' (some h) a with ⟨p, hpr, hpc, heq⟩
        refine ⟨p, List.mem_cons_of_mem _ hpr, hpc, ?_⟩
        unfold scanTabs
        rw [if_neg hs, if_pos hf]
        exact heq
      · rcases ih hrs hex' f a with ⟨p, hpr, hpc, heq⟩
        refine ⟨p, List.mem_cons_of_mem _ hpr, hpc, ?_⟩
        unfold scanTabs
        rw [if_neg hs, if_neg hf, if_neg hc]
        exact heq

/-- Three simulated windows: an error-text window, an undetermined
anyrouter window, and a success-URL window, in scan order. -/
def demoWins : List (String × TabWin) :=
  [("wE", ⟨"https://connect.linux.do/oauth2/authorize", "发生错误，请清除 Cookie 后重试"⟩),
   ("wU", ⟨"https://anyrouter.top/console", ""⟩),
   ("wS", ⟨"https://anyrouter.top/console/token", ""⟩)]

/-- C4: the post-attempt window classification is prioritised — any
success-URL window wins outright whatever the scan order, else any
failure window (error text or login redirect) forces a failure outcome,
else an undetermined window on the target domain is kept in preference
to the original window; concretely, three windows (success-URL,
error-text, undetermined) resolve to Success on the success window,
and consolidating discards the other two. -/
theorem C4_window_classification (original : String)
    (wins : List (String × TabWin)) :
    ((∃ p ∈ wins, isSuccessWin p.2 = true) →
      ∃ p ∈ wins, isSuccessWin p.2 = true ∧
        scan_decide original wins = some (.success p.1)) ∧
    ((∀ p ∈ wins, isSuccessWin p.2 = false) →
      (∃ p ∈ wins, isFailWin p.2 = true) →
      ∃ k, scan_decide original wins = some (.failure k)) ∧
    ((∀ p ∈ wins, isSuccessWin p.2 = false) →
      (∀ p ∈ wins, isFailWin p.2 = false) →
      (∃ p ∈ wins, isCandWin p.2 = true) →
      ∃ p ∈ wins, isCandWin p.2 = true ∧
        scan_decide original wins = some (.unclear p.1)) ∧
    (scan_decide "wE" demoWins = some (.success "wS") ∧
      cleanup_tabs "wS" ⟨["wE", "wU", "wS"], some "wS"⟩
        = some ⟨["wS"], some "wS"⟩) := by
  refine ⟨?_, ?_, ?_, by decide, by decide⟩
  · intro hex
    rcases scanTabs_succ_of_exists hex none none with ⟨p, hp, hps, heq⟩
    refine ⟨p, hp, hps, ?_⟩
    unfold scan_decide
    rw [heq]
  · intro hnos hex
    have hsn := scanTabs_succ_none hnos none none
    rcases scanTabs_fail_of_exists hnos hex none none with ⟨p, hp, hpf, heq⟩
    have hne : wins.map Prod.fst ≠ [] := by
      intro hcon
      have : p.1 ∈ wins.map Prod.fst := List.mem_map.mpr ⟨p, hp, rfl⟩
      rw [hcon] at this
      cases this
    unfold scan_decide
    rw [hsn, heq]
    by_cases hco : (wins.map Prod.fst).contains original = true
    · rw [if_pos hco]
      exact ⟨original, rfl⟩
    · rw [if_neg hco]
      cases hh : wins.map Prod.fst with
      | nil => exact absurd hh hne
      | cons h0 t => exact ⟨h0, rfl⟩
  · intro hnos hnof hex
    have hsn := scanTabs_succ_none hnos none none
    have hfn := scanTabs_fail_acc hnos hnof none none
    rcases scanTabs_cand_of_exists hnos hex none none with ⟨p, hp, hpc, heq⟩
    have hmem : p.1 ∈ wins.map Prod.fst := List.mem_map.mpr ⟨p, hp, rfl⟩
    have hco : (wins.map Prod.fst).contains p.1 = true := by simp [hmem]
    refine ⟨p, hp, hpc, ?_⟩
    unfold scan_decide
    rw [hsn, hfn, heq]
    simp only [Option.getD_some]
    rw [if_pos hco]

/-- Witness for C4 at the concrete three-window scenario: the success
window wins outright although an error-text window is scanned first. -/
theorem C4_window_classification_witness :
    ∃ p ∈ demoWins, isSuccessWin p.2 = true ∧
      scan_decide "wE" demoWins = some (.success p.1) :=
  (C4_window_classification "wE" demoWins).1
    ⟨("wS", ⟨"https://anyrouter.top/console/token", ""⟩), by decide, by decide⟩

/-! ## Locator resolver (`get_first_unread_badge`, main.py 322-351, and
`find_likeable_elements`, main.py 400-434)

A DOM element carries the attributes the resolvers read: visibility
(`is_displayed()`), whether it contains the un-liked reaction icon
(`svg.d-icon-d-unliked` is findable inside it), and its on-screen
location (`elem.location`, used later by `random_like`).  A page state
maps a CSS selector string to the ordered element list that
`driver.find_elements` returns for it. -/

structure Elem where
  ident : Nat
  visible : Bool
  unlikedSvg : Bool
  loc : Nat × Nat
deriving DecidableEq, Repr

instance : Inhabited Elem := ⟨⟨0, false, false, (0, 0)⟩⟩

/-- The ordered candidate selectors of `get_first_unread_badge`. -/
def badgeSelectors : List String :=
  ["a.badge.badge-notification.unread-posts",
   ".badge-posts.badge-notification",
   "a.badge-posts[href*=\x27?u=\x27]",
   ".topic-list-item .badge-notification.new-posts"]

/-- The extra final fallback selector of `get_first_unread_badge`. -/
def badgeFallbackSelector : String :=
  ".topic-list-item a.badge-notification"

/-- `get_first_unread_badge` (main.py 322-351): tries each candidate
selector in order and returns the first displayed element of the first
selector that has one; as a last resort repeats the search with the
fallback selector; returns `none` when nothing visible matches. -/
def get_first_unread_badge (page : String → List Elem) : Option Elem :=
  match badgeSelectors.findSome? (fun sel => (page sel).find? (fun e => e.visible)) with
  | some e => some e
  | none => (page badgeFallbackSelector).find? (fun e => e.visible)

/-- Primary selector of `find_likeable_elements`: the Discourse
Reactions plugin container. -/
def likePrimarySelector : String := "div.discourse-reactions-reaction-button"

/-- Fallback selectors of `find_likeable_elements` (standard Discourse
like buttons), tried only when the primary selector yields nothing. -/
def likeFallbackSelectors : List String :=
  ["button.widget-button.like:not(.has-like):not(.my-likes)",
   "button.toggle-like:not(.has-like):not(.my-likes)"]

/-- The primary matches: displayed containers in which the un-liked icon
`svg.d-icon-d-unliked` is found (`find_element` raising on the liked
ones skips them). -/
def likePrimaryMatches (page : String → List Elem) : List Elem :=
  (page likePrimarySelector).filter (fun e => e.visible && e.unlikedSvg)

/-- `find_likeable_elements` (main.py 400-434): the primary matches if
any; otherwise the displayed matches of *both* fallback selectors,
concatenated (the loop over `fallback_selectors` extends the result
without stopping at the first selector that matches). -/
def find_likeable_elements (page : String → List Elem) : List Elem :=
  if (likePrimaryMatches page).isEmpty then
    likeFallbackSelectors.foldl
      (fun acc sel => acc ++ (page sel).filter (fun e => e.visible)) []
  else likePrimaryMatches page

/-- A found value of `findSome?` comes from some list element. -/
theorem findSome?_eq_some_mem {α β : Type} {f : α → Option β} {l : List α}
    {b : β} (h : l.findSome? f = some b) : ∃ a ∈ l, f a = some b := by
  induction l with
  | nil => cases h
  | cons x rest ih =>
    rw [List.findSome?_cons] at h
    cases hx : f x with
    | some v =>
      rw [hx] at h
      simp at h
      exact ⟨x, List.mem_cons_self _ _, by rw [hx, h]⟩
    | none =>
      rw [hx] at h
      rcases ih h with ⟨a, ha, hfa⟩
      exact ⟨a, List.mem_cons_of_mem _ ha, hfa⟩

/-- `findSome?` over a list on which `f` is everywhere `none` is `none`. -/
theorem findSome?_eq_none_of_all {α β : Type} {f : α → Option β}
    {l : List α} (h : ∀ a ∈ l, f a = none) : l.findSome? f = none := by
  induction l with
  | nil => rfl
  | cons x rest ih =>
    rw [List.findSome?_cons, h x (List.mem_cons_self _ _)]
    exact ih (fun a ha => h a (List.mem_cons_of_mem _ ha))

/-- The full ordered candidate chain of `get_first_unread_badge`: the
four main selectors followed by the final fallback selector. -/
def badgeChain : List String := badgeSelectors ++ [badgeFallbackSelector]

/-- `get_first_unread_badge` is the ordered resolution over the full
chain. -/
theorem get_first_unread_badge_eq_chain (page : String → List Elem) :
    get_first_unread_badge page
      = badgeChain.findSome? (fun sel => (page sel).find? (fun e => e.visible)) := by
  unfold get_first_unread_badge badgeChain
  rw [List.findSome?_append]
  cases hfs : badgeSelectors.findSome? (fun sel => (page sel).find? (fun e => e.visible)) with
  | some e => rfl
  | none =>
    show (page badgeFallbackSelector).find? (fun e => e.visible)
      = List.findSome? (fun sel => (page sel).find? (fun e => e.visible)) [badgeFallbackSelector]
    simp only [List.findSome?_cons]
    cases hfb : (page badgeFallbackSelector).find? (fun e => e.visible) <;> rfl

/-- Concrete page for the counterexample: the primary reactions selector
matches nothing, the first fallback selector yields the visible element
`cexElemA`, the second yields the visible element `cexElemB`. -/
def cexLikePage : String → List Elem := fun sel =>
  if sel == "button.widget-button.like:not(.has-like):not(.my-likes)"
  then [⟨1, true, false, (0, 0)⟩]
  else if sel == "button.toggle-like:not(.has-like):not(.my-likes)"
  then [⟨2, true, false, (0, 1)⟩]
  else []

/-- C5 counterexample: on `cexLikePage` the first fallback selector of
`find_likeable_elements` already yields a visible match, yet the
resolver also returns the second fallback selector's element — a later
candidate is consulted, and an element not belonging to the earliest
visibly-matching candidate is returned, refuting the
earliest-candidate-wins part of the claim. -/
theorem C5_locator_cex :
    (cexLikePage "button.widget-button.like:not(.has-like):not(.my-likes)").filter
        (fun e => e.visible) = [⟨1, true, false, (0, 0)⟩] ∧
    find_likeable_elements cexLikePage
      = [⟨1, true, false, (0, 0)⟩, ⟨2, true, false, (0, 1)⟩] ∧
    (⟨2, true, false, (0, 1)⟩ : Elem)
      ∉ cexLikePage "button.widget-button.like:not(.has-like):not(.my-likes)" := by
  refine ⟨by decide, by decide, by decide⟩

/-- C5 (amended): the unread-badge resolver never returns an invisible
element, returns the first visible match of the earliest candidate that
has one, and returns `none` (not an error) when no candidate yields a
visible match; the likeable-element resolver returns only visible
elements and consults its fallback selectors only when the primary
selector yields no (visible, un-liked) match — but it pools the matches
of *both* fallback selectors instead of stopping at the earliest
fallback that yields a visible match. -/
theorem C5_locator_amended (page : String → List Elem) :
    (∀ e, get_first_unread_badge page = some e → e.visible = true) ∧
    (∀ l₁ sel l₂ e, badgeChain = l₁ ++ sel :: l₂ →
      (∀ s ∈ l₁, (page s).find? (fun x => x.visible) = none) →
      (page sel).find? (fun x => x.visible) = some e →
      get_first_unread_badge page = some e) ∧
    ((∀ sel ∈ badgeChain, ∀ e ∈ page sel, e.visible = false) →
      get_first_unread_badge page = none) ∧
    ((find_likeable_elements page).all (fun e => e.visible) = true) ∧
    (likePrimaryMatches page ≠ [] →
      find_likeable_elements page = likePrimaryMatches page) := by
  refine ⟨?_, ?_, ?_, ?_, ?_⟩
  · intro e he
    rw [get_first_unread_badge_eq_chain] at he
    rcases findSome?_eq_some_mem he with ⟨sel, _, hfind⟩
    exact List.find?_some hfind
  · intro l₁ sel l₂ e hchain hnone hfind
    rw [get_first_unread_badge_eq_chain, hchain, List.findSome?_append]
    rw [findSome?_eq_none_of_all hnone]
    rw [List.findSome?_cons, hfind]
    rfl
  · intro hall
    rw [get_first_unread_badge_eq_chain]
    apply findSome?_eq_none_of_all
    intro sel hsel
    rw [List.find?_eq_none]
    intro e he
    rw [hall sel hsel e he]
    simp
  · unfold find_likeable_elements
    by_cases hp : (likePrimaryMatches page).isEmpty = true
    · rw [if_pos hp]
      rw [List.all_eq_true]
      intro e he
      simp only [likeFallbackSelectors, List.foldl_cons, List.foldl_nil,
        List.nil_append] at he
      rcases List.mem_append.mp he with h1 | h2
      · exact (List.mem_filter.mp h1).2
      · exact (List.mem_filter.mp h2).2
    · rw [if_neg hp]
      rw [List.all_eq_true]
      intro e he
      have := (List.mem_filter.mp he).2
      exact (Bool.and_eq_true _ _ |>.mp this).1
  · intro hne
    unfold find_likeable_elements
    rw [if_neg (by simpa using hne)]

/-- Concrete page where the primary reactions selector yields a visible
un-liked container. -/
def witLikePage : String → List Elem := fun sel =>
  if sel == likePrimarySelector then [⟨3, true, true, (1, 1)⟩] else []

/-- Witness for C5 (amended): with a visible primary match, the resolver
returns exactly the primary matches. -/
theorem C5_locator_amended_witness :
    find_likeable_elements witLikePage = likePrimaryMatches witLikePage :=
  (C5_locator_amended witLikePage).2.2.2.2 (by decide)

/-! ## Bounded polling waits (`qaqal_checkin` computation wait, main.py
1162-1194, and `handle_cloudflare`, main.py 187-204)

The predicate `enabledAt i` abstracts the submit-button check of
iteration with `elapsed = i` seconds (`submitPowBtn` present, no
`disabled` attribute, `is_enabled()`); `clearedAt i` abstracts the
title check of Cloudflare poll `i` (neither `"Just a moment"` nor
`"Cloudflare"` in the title).  The source loop is
`while elapsed < max_wait: poll; sleep(3); elapsed += 3` with
`max_wait = 300`; its iterations are in bijection with a fuel counter
of `300 / 3 = 100`, which the fuel-based recursion below makes
structural (the fuel runs out exactly when `elapsed` reaches 300). -/

/-- The `while elapsed < max_wait` polling loop of `qaqal_checkin`
(main.py 1170-1194).  Returns whether the button became enabled and the
number of polls performed.  Fuel = remaining iterations. -/
def qaqalWaitGo (enabledAt : Nat → Bool) : Nat → Nat → Nat → Bool × Nat
  | 0, _, polls => (false, polls)
  | n + 1, elapsed, polls =>
    if elapsed < 300 then
      if enabledAt elapsed then (true, polls + 1)
      else qaqalWaitGo enabledAt n (elapsed + 3) (polls + 1)
    else (false, polls)

/-- The computation-complete wait of `qaqal_checkin`: `max_wait = 300`,
`poll_interval = 3`, so 100 iterations of fuel; a `false` result is the
`while`'s `else:` branch (`return False`, the TimedOut outcome). -/
def qaqalWait (enabledAt : Nat → Bool) : Bool × Nat :=
  qaqalWaitGo enabledAt 100 0 0

/-- The `for i in range(30)` polling loop of `handle_cloudflare`
(main.py 194-200): up to 30 polls of the page title; returns whether the
challenge cleared and the number of polls (the loop falls through
normally — a logged warning — when all 30 polls still see the
challenge). -/
def cloudflareLoop (clearedAt : Nat → Bool) : Nat → Nat → Bool × Nat
  | 0, polls => (false, polls)
  | fuel + 1, polls =>
    if clearedAt polls then (true, polls + 1)
    else cloudflareLoop clearedAt fuel (polls + 1)

/-- `handle_cloudflare` (main.py 187-204): polls only when the initial
title matches a challenge marker; returns normally in every case. -/
def handle_cloudflare (initialChallenge : Bool) (clearedAt : Nat → Bool) :
    Bool × Nat :=
  if initialChallenge then cloudflareLoop clearedAt 30 0 else (true, 0)

/-- The polling loop performs at most `fuel` further polls. -/
theorem qaqalWaitGo_polls_le (enabledAt : Nat → Bool) :
    ∀ fuel elapsed polls,
      (qaqalWaitGo enabledAt fuel elapsed polls).2 ≤ polls + fuel := by
  intro fuel
  induction fuel with
  | zero =>
    intro elapsed polls
    simp [qaqalWaitGo]
  | succ n ih =>
    intro elapsed polls
    unfold qaqalWaitGo
    by_cases he : elapsed < 300
    · rw [if_pos he]
      by_cases hp : enabledAt elapsed = true
      · rw [if_pos hp]; omega
      · rw [if_neg hp]
        have := ih (elapsed + 3) (polls + 1)
        omega
    · rw [if_neg he]; simp

/-- When the predicate never becomes true and the fuel covers the
remaining distance to the 300-second deadline exactly, the loop times
out having spent all its polls. -/
theorem qaqalWaitGo_never (enabledAt : Nat → Bool)
    (hnever : ∀ i, enabledAt i = false) :
    ∀ k elapsed polls, elapsed + 3 * k = 300 →
      qaqalWaitGo enabledAt k elapsed polls = (false, polls + k) := by
  intro k
  induction k with
  | zero =>
    intro elapsed polls hk
    simp [qaqalWaitGo]
  | succ n ih =>
    intro elapsed polls hk
    unfold qaqalWaitGo
    rw [if_pos (by omega)]
    rw [if_neg (by rw [hnever elapsed]; simp)]
    rw [ih (elapsed + 3) (polls + 1) (by omega)]
    congr 1
    omega

/-- The Cloudflare polling loop performs at most `fuel` further polls
and always returns. -/
theorem cloudflareLoop_polls_le (clearedAt : Nat → Bool) :
    ∀ fuel polls, (cloudflareLoop clearedAt fuel polls).2 ≤ polls + fuel := by
  intro fuel
  induction fuel with
  | zero => intro polls; simp [cloudflareLoop]
  | succ n ih =>
    intro polls
    unfold cloudflareLoop
    by_cases hp : clearedAt polls = true
    · rw [if_pos hp]; omega
    · rw [if_neg hp]
      have := ih (polls + 1)
      omega

/-- C6: the computation-complete wait of `qaqal_checkin` performs at
most `ceil(300 / 3) = 100` polls whatever the predicate does, and when
the predicate never becomes true it performs exactly 100 polls and
returns the TimedOut outcome; the Cloudflare interstitial wait performs
at most 30 polls and returns normally, reporting not-cleared after
exactly 30 polls when the challenge never clears.  Both loops are total
functions of their predicates, so neither can iterate forever. -/
theorem C6_bounded_polling (enabledAt clearedAt : Nat → Bool)
    (initialChallenge : Bool) :
    ((qaqalWait enabledAt).2 ≤ 100) ∧
    ((∀ i, enabledAt i = false) → qaqalWait enabledAt = (false, 100)) ∧
    ((handle_cloudflare initialChallenge clearedAt).2 ≤ 30) ∧
    ((∀ i, clearedAt i = false) →
      handle_cloudflare true clearedAt = (false, 30)) := by
  refine ⟨?_, ?_, ?_, ?_⟩
  · have := qaqalWaitGo_polls_le enabledAt 100 0 0
    simpa [qaqalWait] using this
  · intro hnever
    have := qaqalWaitGo_never enabledAt hnever 100 0 0 (by omega)
    simpa [qaqalWait] using this
  · unfold handle_cloudflare
    by_cases hi : initialChallenge = true
    · rw [if_pos hi]
      have := cloudflareLoop_polls_le clearedAt 30 0
      simpa using this
    · rw [if_neg hi]; simp
  · intro hnever
    unfold handle_cloudflare
    rw [if_pos rfl]
    have hgen : ∀ fuel polls, (∀ i, clearedAt i = false) →
        cloudflareLoop clearedAt fuel polls = (false, polls + fuel) := by
      intro fuel
      induction fuel with
      | zero => intro polls _; simp [cloudflareLoop]
      | succ n ih =>
        intro polls hn
        unfold cloudflareLoop
        rw [if_neg (by rw [hn polls]; simp)]
        rw [ih (polls + 1) hn]
        congr 1
        omega
    have := hgen 30 0 hnever
    simpa using this

/-- Witness for C6: with a never-true predicate the computation wait
times out after exactly 100 polls and the Cloudflare wait gives up after
exactly 30 polls. -/
theorem C6_bounded_polling_witness :
    qaqalWait (fun _ => false) = (false, 100) ∧
    handle_cloudflare true (fun _ => false) = (false, 30) :=
  ⟨(C6_bounded_polling (fun _ => false) (fun _ => false) true).2.1 (fun _ => rfl),
   (C6_bounded_polling (fun _ => false) (fun _ => false) true).2.2.2 (fun _ => rfl)⟩

/-! ## Worklist traversal (`read_new_posts` / `get_first_new_topic`,
main.py 254-320)

A topic link carries `get_attribute('href')` (`None` when the attribute
is missing) and `is_displayed()`.  The listing page contents at loop
iteration `iter` are `pages iter` (the page may re-list already-read
topics); `isError url` abstracts `check_topic_error()` (and the caught
click exception) for the topic at `url`, which makes the loop `continue`
without counting the topic.  The `while count < max_new_topics` loop is
additionally bounded by a fuel parameter because the source loop need
not terminate when the listing keeps serving fresh erroring topics; the
claim's no-revisit invariant holds for every fuel. -/

structure Link where
  href : Option String
  displayed : Bool
deriving DecidableEq, Repr

/-- The selection test of `get_first_new_topic`:
`if href and href not in visited_urls and link.is_displayed()`. -/
def linkOk (visited : List String) (l : Link) : Bool :=
  match l.href with
  | none => false
  | some h => h != "" && !visited.contains h && l.displayed

/-- `get_first_new_topic` (main.py 307-320): the first listed link whose
href is present, not yet visited, and displayed. -/
def get_first_new_topic (visited : List String) (links : List Link) :
    Option Link :=
  links.find? (linkOk visited)

/-- The `while count < max_new_topics` loop of `read_new_posts`
(main.py 262-303): selects a topic, marks its URL visited *before*
reading it, counts it only when it loads without error, and stops when
no unvisited link remains, the cap is reached, or the fuel runs out.
Returns the selected URLs in selection order. -/
def read_new_posts_go (pages : Nat → List Link) (isError : String → Bool)
    (maxN : Nat) : Nat → Nat → Nat → List String → List String → List String
  | 0, _, _, _, selected => selected.reverse
  | fuel + 1, iter, count, visited, selected =>
    if count < maxN then
      match get_first_new_topic visited (pages iter) with
      | none => selected.reverse
      | some l =>
        if isError (l.href.getD "") then
          read_new_posts_go pages isError maxN fuel (iter + 1) count
            (l.href.getD "" :: visited) (l.href.getD "" :: selected)
        else
          read_new_posts_go pages isError maxN fuel (iter + 1) (count + 1)
            (l.href.getD "" :: visited) (l.href.getD "" :: selected)
    else selected.reverse

/-- `read_new_posts` (main.py 254-305): the traversal started with empty
visited set and zero count. -/
def read_new_posts (pages : Nat → List Link) (isError : String → Bool)
    (maxN fuel : Nat) : List String :=
  read_new_posts_go pages isError maxN fuel 0 0 [] []

/-- A selected link has a present, non-empty, not-yet-visited, displayed
href. -/
theorem get_first_new_topic_spec {visited : List String}
    {links : List Link} {l : Link}
    (h : get_first_new_topic visited links = some l) :
    ∃ u, l.href = some u
      ∧ (u != "" && !visited.contains u && l.displayed) = true := by
  have hok : linkOk visited l = true := List.find?_some h
  unfold linkOk at hok
  cases hh : l.href with
  | none => rw [hh] at hok; cases hok
  | some u =>
    rw [hh] at hok
    exact ⟨u, rfl, hok⟩

/-- The traversal preserves the invariant that every selected URL is in
the visited set, and never selects a URL twice. -/
theorem read_new_posts_go_nodup (pages : Nat → List Link)
    (isError : String → Bool) (maxN : Nat) :
    ∀ fuel iter count visited selected,
      selected.Nodup → (∀ u ∈ selected, u ∈ visited) →
      (read_new_posts_go pages isError maxN fuel iter count visited
        selected).Nodup := by
  intro fuel
  induction fuel with
  | zero =>
    intro iter count visited selected hnd _
    simpa [read_new_posts_go] using hnd
  | succ n ih =>
    intro iter count visited selected hnd hsub
    unfold read_new_posts_go
    by_cases hcount : count < maxN
    · rw [if_pos hcount]
      cases hsel : get_first_new_topic visited (pages iter) with
      | none => simpa using hnd
      | some l =>
        dsimp only
        rcases get_first_new_topic_spec hsel with ⟨u, hu, hok⟩
        have hnv : u ∉ visited := by
          rcases Bool.and_eq_true _ _ |>.mp hok with ⟨h1, _⟩
          rcases Bool.and_eq_true _ _ |>.mp h1 with ⟨_, h2⟩
          simpa using h2
        have hgd : l.href.getD "" = u := by rw [hu]; rfl
        have hns : u ∉ selected := fun hc => hnv (hsub u hc)
        have hnd' : (u :: selected).Nodup := List.nodup_cons.mpr ⟨hns, hnd⟩
        have hsub' : ∀ v ∈ u :: selected, v ∈ u :: visited := by
          intro v hv
          rcases List.mem_cons.mp hv with rfl | hvs
          · exact List.mem_cons_self _ _
          · exact List.mem_cons_of_mem _ (hsub v hvs)
        rw [hgd]
        by_cases herr : isError u = true
        · rw [if_pos herr]
          exact ih (iter + 1) count (u :: visited) (u :: selected) hnd' hsub'
        · rw [if_neg herr]
          exact ih (iter + 1) (count + 1) (u :: visited) (u :: selected) hnd' hsub'
    · rw [if_neg hcount]
      simpa using hnd

/-- C7: within one run, a topic URL already marked visited is never
selected again.  Every selected link's URL is absent from the visited
set at selection time (and the link is displayed with a present,
non-empty href), and the traversal adds the URL to the visited set
before reading the topic, so the selected URLs of a whole run are
pairwise distinct — even when the listing page re-lists a visited topic
at a later iteration. -/
theorem C7_worklist_no_revisit (pages : Nat → List Link)
    (isError : String → Bool) (maxN fuel : Nat) :
    (∀ visited links l, get_first_new_topic visited links = some l →
      ∃ u, l.href = some u
        ∧ (u != "" && !visited.contains u && l.displayed) = true) ∧
    (read_new_posts pages isError maxN fuel).Nodup := by
  refine ⟨fun _ _ _ h => get_first_new_topic_spec h, ?_⟩
  exact read_new_posts_go_nodup pages isError maxN fuel 0 0 [] []
    List.nodup_nil (fun u hu => absurd hu (List.not_mem_nil u))

/-- Witness for C7: on a listing that re-lists the visited URL `u1`, the
resolver skips it and selects `u2`, whose URL is not in the visited
set. -/
theorem C7_worklist_no_revisit_witness :
    ∃ u, (⟨some "u2", true⟩ : Link).href = some u
      ∧ (u != "" && !(["u1"].contains u) && true) = true :=
  (C7_worklist_no_revisit (fun _ => []) (fun _ => false) 2 5).1
    ["u1"] [⟨some "u1", true⟩, ⟨some "u2", true⟩] ⟨some "u2", true⟩ (by decide)

/-! ## Randomized reaction selection (`random_like`, main.py 436-507)

The page contents when the loop re-queries the DOM at iteration `t` are
`pageAt t` (fed through `find_likeable_elements`, as in the source);
`pick t` abstracts `random.choice` (reduced modulo the number of
available candidates); `clickOk t` is false when the scroll/click of
iteration `t` raises even through the JavaScript fallback, which the
source catches and answers with `continue` — the position key has
already been recorded by then, but `liked` is not incremented. -/

/-- The position key of an element:
`f"{loc['x']},{loc['y']}"` built from `elem.location`. -/
def posKey (loc : Nat × Nat) : String :=
  toString loc.1 ++ "," ++ toString loc.2

/-- Result of one engagement pass: the final `liked` counter, the number
of loop iterations (`attempts`), and the chosen position keys in
selection order. -/
structure LikeRun where
  liked : Nat
  iterations : Nat
  keys : List String
deriving DecidableEq, Repr

/-- The `available` list of one iteration: current likeable elements
whose position key has not been recorded in `liked_positions`. -/
def availableAt (pageAt : Nat → String → List Elem) (likedPos : List String)
    (t : Nat) : List Elem :=
  (find_likeable_elements (pageAt t)).filter
    (fun e => !likedPos.contains (posKey e.loc))

/-- The element `random.choice(available)` picks at iteration `t`. -/
def chosenElem (pageAt : Nat → String → List Elem) (pick : Nat → Nat)
    (likedPos : List String) (t : Nat) : Elem :=
  (availableAt pageAt likedPos t).getD
    (pick t % (availableAt pageAt likedPos t).length) default

/-- The `while liked < like_count and attempts < max_attempts` loop of
`random_like` (main.py 449-505).  The fuel parameter is the remaining
attempt budget `max_attempts - attempts`; each iteration increments
`attempts` (here `iters`) once, exactly as the source does at the top of
the loop body. -/
def random_like_go (pageAt : Nat → String → List Elem) (pick : Nat → Nat)
    (clickOk : Nat → Bool) (likeCount : Nat) :
    Nat → Nat → Nat → Nat → List String → List String → LikeRun
  | 0, liked, _, iters, _, chosen => ⟨liked, iters, chosen.reverse⟩
  | fuel + 1, liked, t, iters, likedPos, chosen =>
    if liked < likeCount then
      if (find_likeable_elements (pageAt t)).isEmpty then
        ⟨liked, iters + 1, chosen.reverse⟩
      else if (availableAt pageAt likedPos t).isEmpty then
        ⟨liked, iters + 1, chosen.reverse⟩
      else if clickOk t then
        random_like_go pageAt pick clickOk likeCount fuel (liked + 1) (t + 1)
          (iters + 1)
          (posKey (chosenElem pageAt pick likedPos t).loc :: likedPos)
          (posKey (chosenElem pageAt pick likedPos t).loc :: chosen)
      else
        random_like_go pageAt pick clickOk likeCount fuel liked (t + 1)
          (iters + 1)
          (posKey (chosenElem pageAt pick likedPos t).loc :: likedPos)
          (posKey (chosenElem pageAt pick likedPos t).loc :: chosen)
    else ⟨liked, iters, chosen.reverse⟩

/-- `random_like` (main.py 436-507) for a target count of `likeCount`
(the source randomizes it as `random.randint(max_likes - 1, max_likes)`;
it is a parameter here): attempt budget `max_attempts = like_count * 3`,
starting with no likes, no attempts, and no recorded positions. -/
def random_like (pageAt : Nat → String → List Elem) (pick : Nat → Nat)
    (clickOk : Nat → Bool) (likeCount : Nat) : LikeRun :=
  random_like_go pageAt pick clickOk likeCount (likeCount * 3) 0 0 0 [] []

/-- Indexing a non-empty list modulo its length stays inside the list. -/
theorem getD_mod_mem {α : Type} [Inhabited α] {l : List α} (hne : l ≠ [])
    (i : Nat) : l.getD (i % l.length) default ∈ l := by
  have hlen : 0 < l.length := List.length_pos.mpr hne
  have hlt : i % l.length < l.length := Nat.mod_lt _ hlen
  rw [List.getD_eq_getElem?_getD, List.getElem?_eq_getElem hlt]
  exact List.getElem_mem hlt

/-- The element chosen at iteration `t` has a position key that is not
yet recorded. -/
theorem chosenElem_key_fresh {pageAt : Nat → String → List Elem}
    (pick : Nat → Nat) {likedPos : List String} {t : Nat}
    (hne : ¬(availableAt pageAt likedPos t).isEmpty = true) :
    likedPos.contains (posKey (chosenElem pageAt pick likedPos t).loc)
      = false := by
  have hne' : availableAt pageAt likedPos t ≠ [] := by
    intro hcon
    rw [hcon] at hne
    exact hne rfl
  have hmem : chosenElem pageAt pick likedPos t ∈ availableAt pageAt likedPos t :=
    getD_mod_mem hne' _
  have := (List.mem_filter.mp hmem).2
  simpa using this

/-- Invariant proof for the engagement loop: the chosen keys stay
pairwise distinct and inside the recorded set, the iteration count is
bounded by the fuel, and `liked` never exceeds the target. -/
theorem random_like_go_spec (pageAt : Nat → String → List Elem)
    (pick : Nat → Nat) (clickOk : Nat → Bool) (likeCount : Nat) :
    ∀ fuel liked t iters likedPos chosen,
      chosen.Nodup → (∀ k ∈ chosen, k ∈ likedPos) → liked ≤ likeCount →
      (random_like_go pageAt pick clickOk likeCount fuel liked t iters
          likedPos chosen).keys.Nodup ∧
      (random_like_go pageAt pick clickOk likeCount fuel liked t iters
          likedPos chosen).iterations ≤ iters + fuel ∧
      (random_like_go pageAt pick clickOk likeCount fuel liked t iters
          likedPos chosen).liked ≤ likeCount := by
  intro fuel
  induction fuel with
  | zero =>
    intro liked t iters likedPos chosen hnd _ hle
    refine ⟨by simpa [random_like_go] using hnd, ?_, ?_⟩
    · simp [random_like_go]
    · simpa [random_like_go] using hle
  | succ n ih =>
    intro liked t iters likedPos chosen hnd hsub hle
    unfold random_like_go
    by_cases hlt : liked < likeCount
    · rw [if_pos hlt]
      by_cases hemp : (find_likeable_elements (pageAt t)).isEmpty = true
      · rw [if_pos hemp]
        exact ⟨by simpa using hnd, by simp, by simpa using hle⟩
      · rw [if_neg hemp]
        by_cases hav : (availableAt pageAt likedPos t).isEmpty = true
        · rw [if_pos hav]
          exact ⟨by simpa using hnd, by simp, by simpa using hle⟩
        · rw [if_neg hav]
          have hfresh := chosenElem_key_fresh pick hav
          have hkey : posKey (chosenElem pageAt pick likedPos t).loc ∉ likedPos := by
            simpa using hfresh
          have hnk : posKey (chosenElem pageAt pick likedPos t).loc ∉ chosen :=
            fun hc => hkey (hsub _ hc)
          have hnd' : (posKey (chosenElem pageAt pick likedPos t).loc :: chosen).Nodup :=
            List.nodup_cons.mpr ⟨hnk, hnd⟩
          have hsub' : ∀ k ∈ posKey (chosenElem pageAt pick likedPos t).loc :: chosen,
              k ∈ posKey (chosenElem pageAt pick likedPos t).loc :: likedPos := by
            intro k hk
            rcases List.mem_cons.mp hk with rfl | hks
            · exact List.mem_cons_self _ _
            · exact List.mem_cons_of_mem _ (hsub k hks)
          by_cases hck : clickOk t = true
          · rw [if_pos hck]
            have := ih (liked + 1) (t + 1) (iters + 1) _ _ hnd' hsub' (by omega)
            exact ⟨this.1, by have := this.2.1; omega, this.2.2⟩
          · rw [if_neg hck]
            have := ih liked (t + 1) (iters + 1) _ _ hnd' hsub' hle
            exact ⟨this.1, by have := this.2.1; omega, this.2.2⟩
    · rw [if_neg hlt]
      exact ⟨by simpa using hnd, by simp, by simpa using hle⟩

/-- C8: within one engagement pass, no two selections share a position
key (every chosen key is recorded and excluded from later choices), the
loop runs at most `3 × like_count` iterations even when the distinct
candidates run out early, and the number of recorded likes never exceeds
the target count. -/
theorem C8_reaction_dedupe (pageAt : Nat → String → List Elem)
    (pick : Nat → Nat) (clickOk : Nat → Bool) (likeCount : Nat) :
    (random_like pageAt pick clickOk likeCount).keys.Nodup ∧
    (random_like pageAt pick clickOk likeCount).iterations ≤ 3 * likeCount ∧
    (random_like pageAt pick clickOk likeCount).liked ≤ likeCount := by
  have h := random_like_go_spec pageAt pick clickOk likeCount
    (likeCount * 3) 0 0 0 [] [] List.nodup_nil
    (fun k hk => absurd hk (List.not_mem_nil k)) (Nat.zero_le _)
  exact ⟨h.1, by have := h.2.1; unfold random_like; omega, h.2.2⟩

/-! ## Top-level workflow sequencing (`main`, main.py 1229-1305)

For a linux.do configuration, `main` runs the forum-reading workflow and
the three check-in workflows in order, each inside its own
`try: ... except Exception: log` block.  A workflow's behaviour is
either a returned Bool (`anyrouter_checkin` returns `False` on attempt
exhaustion, it does not raise) or a raised exception. -/

inductive Beh where
  | ok (result : Bool)
  | raise (msg : String)
deriving DecidableEq, Repr

/-- Executes a sequence of steps where each step records whether the
source wraps it in `try/except` (`guarded`): a guarded step's exception
is caught and control proceeds; an unguarded raise aborts the rest.
Returns the names of the steps that were started. -/
def execSteps : List (String × Bool × Beh) → List String
  | [] => []
  | (nm, guarded, b) :: rest =>
    match b with
    | .ok _ => nm :: execSteps rest
    | .raise _ => if guarded then nm :: execSteps rest else [nm]

/-- The linux.do branch of `main` (main.py 1264-1299): every workflow is
wrapped in its own `try/except Exception` (lines 1266, 1274, 1282,
1290), so all four steps are guarded. -/
def mainLinuxDoSteps (forumB tunehubB anyrouterB qaqalB : Beh) :
    List (String × Bool × Beh) :=
  [("forum", true, forumB),
   ("tunehub", true, tunehubB),
   ("anyrouter", true, anyrouterB),
   ("qaqal", true, qaqalB)]

/-- The workflows `main` actually starts for a linux.do configuration. -/
def mainLinuxDo (forumB tunehubB anyrouterB qaqalB : Beh) : List String :=
  execSteps (mainLinuxDoSteps forumB tunehubB anyrouterB qaqalB)

/-- C9: whatever each workflow does — return `True`, return `False`
(e.g. attempt exhaustion), or raise — every subsequent workflow of the
same session is still started: the forum read, the TuneHub check-in,
the AnyRouter sign-in and the sign.qaq.al check-in all run.  The second
conjunct shows the model is not vacuous: an unguarded raising step would
abort the remaining steps. -/
theorem C9_failure_isolation (forumB tunehubB anyrouterB qaqalB : Beh) :
    mainLinuxDo forumB tunehubB anyrouterB qaqalB
        = ["forum", "tunehub", "anyrouter", "qaqal"] ∧
    execSteps [("forum", false, .raise "boom"), ("tunehub", true, .ok true)]
        = ["forum"] := by
  refine ⟨?_, by decide⟩
  cases forumB <;> cases tunehubB <;> cases anyrouterB <;> cases qaqalB <;>
    simp [mainLinuxDo, mainLinuxDoSteps, execSteps]

/-! ## TuneHub check-in (`tunehub_checkin`, main.py 509-704)

The environment records the outcome of each fallible interaction the
control flow branches on.  `ckPrimaryClickOk = false` means both the
direct click and the JavaScript-fallback click of the primary check-in
button raised, which sends control to the alternative-selector handler;
a failure inside that handler is answered with `return True`. -/

structure TunehubEnv where
  loginPrimary : Bool
  loginAlt : Bool
  dashWait : Bool
  dashUrlNow : Bool
  ckPrimaryFound : Bool
  ckDisplayed : Bool
  ckEnabled : Bool
  ckPrimaryClickOk : Bool
  ckAltFound : Bool
  ckAltClickOk : Bool
deriving DecidableEq, Repr

/-- The alternative check-in-button path (main.py 613-623): find the
button by text; any failure, including a failing click, is caught and
answered with `return True`; a successful click proceeds to steps 7-8,
which always end in `return True`. -/
def tunehubAltPath (env : TunehubEnv) : Bool :=
  if env.ckAltFound then
    if env.ckAltClickOk then true
    else true
  else true

/-- Step 6 of `tunehub_checkin` (main.py 594-627): the primary button,
when found, is clicked only if displayed and enabled — otherwise the
function returns `True` ("may have already checked in today"); a
primary-click failure falls to the alternative path, as does a missing
primary button. -/
def tunehubCheckinStep (env : TunehubEnv) : Bool :=
  if env.ckPrimaryFound then
    if env.ckDisplayed && env.ckEnabled then
      if env.ckPrimaryClickOk then true
      else tunehubAltPath env
    else true
  else tunehubAltPath env

/-- `tunehub_checkin` (main.py 509-704): returns `False` only when
neither login-button locator succeeds (step 2) or the dashboard is not
reached (step 4); every path through the check-in-button logic and the
verification steps 7-8 returns `True`. -/
def tunehub_checkin (env : TunehubEnv) : Bool :=
  if !env.loginPrimary && !env.loginAlt then false
  else if !env.dashWait && !env.dashUrlNow then false
  else tunehubCheckinStep env

/-- C10: whenever login and dashboard arrival succeed, a found but
non-displayed or non-enabled check-in button yields `True`, and a
check-in button that cannot be located at all (primary and alternative
selector both fail) also yields `True` — absence or non-clickability is
treated as "already checked in"; the result is `False` exactly when
login-button discovery or dashboard arrival fails. -/
theorem C10_tunehub_absence_is_success (env : TunehubEnv) :
    ((env.loginPrimary || env.loginAlt) = true →
      (env.dashWait || env.dashUrlNow) = true →
      env.ckPrimaryFound = true → (env.ckDisplayed && env.ckEnabled) = false →
      tunehub_checkin env = true) ∧
    ((env.loginPrimary || env.loginAlt) = true →
      (env.dashWait || env.dashUrlNow) = true →
      env.ckPrimaryFound = false → env.ckAltFound = false →
      tunehub_checkin env = true) ∧
    (tunehub_checkin env = false
      ↔ ((env.loginPrimary || env.loginAlt) = false
          ∨ (env.dashWait || env.dashUrlNow) = false)) := by
  obtain ⟨a, b, c, d, e, f, g, h, i, j⟩ := env
  revert a b c d e f g h i j
  decide

/-- Witness for C10: a displayed-but-disabled button and a fully absent
button both yield `True`. -/
theorem C10_tunehub_absence_is_success_witness :
    tunehub_checkin ⟨true, false, true, false, true, true, false, true, true, true⟩ = true ∧
    tunehub_checkin ⟨true, false, true, false, false, false, false, false, false, false⟩ = true :=
  ⟨(C10_tunehub_absence_is_success
      ⟨true, false, true, false, true, true, false, true, true, true⟩).1 rfl rfl rfl rfl,
   (C10_tunehub_absence_is_success
      ⟨true, false, true, false, false, false, false, false, false, false⟩).2.1 rfl rfl rfl rfl⟩
